import Mathlib

/-!
# Verification of the near-teller contract

Shallow embedding of the near-teller custody-guard contract
(`src/lib.rs`, `src/implementation.rs`, `src/error.rs`).

The contract state is two persistent fields `t0` (u64 nanosecond timestamp)
and `locked` (u128 yocto-NEAR).  The ambient NEAR environment (current
account id, predecessor account id, block timestamp) is threaded explicitly
as an `Env` value.  Outbound promises (`promise_batch_create` followed by a
transfer or a weighted function-call action) are modelled as a list of
`Action` records returned by each operation.  Rust panics (the `Error::panic`
calls and the out-of-bounds array index in `staking_pool`) abort the whole
call with no state change; they are modelled by `Except.error`, and a caller
applying an operation keeps the pre-call state on any error (`applyOp`).

Machine integers are modelled as `Nat`.  The only subtractions in the source
(`env::block_timestamp() - self.t0` and `available_ever - self.locked` in
`hot`) are modelled with truncated `Nat` subtraction; the invariant theorems
show the subtrahend never exceeds the minuend on reachable states, so the
truncation is never exercised.
-/

namespace NearTeller

/-- NEAR account ids; the embedding does not need their internal structure. -/
abbrev AccountId := String

/-- `near_sdk::Balance` is u128 yocto-NEAR. -/
abbrev Balance := Nat

/-- Error conditions.  `NotEnoughHot` and `ForeignAccountNotAllowed` are the
`Error` enum of `src/error.rs`; `IndexOutOfBounds` models the Rust panic on
out-of-bounds array access inside `staking_pool` (`src/lib.rs` line 191);
`MalformedAmount` models the parse failure of the base-unit (yocto) string
variants. All of them abort the whole call fatally. -/
inductive Error where
  | NotEnoughHot
  | ForeignAccountNotAllowed
  | IndexOutOfBounds
  | MalformedAmount
deriving DecidableEq, Repr

/-- The static configuration `CONFIG : Config = include!("config.ron")` of
`src/lib.rs`.  The concrete `config.ron` is not part of the sources, so the
rate and the pool identifiers stay abstract, but the Rust field type
`staking_pools : [&'static str; 10]` fixes the list length to 10. -/
structure Config where
  nano_near_per_second : Nat
  staking_pools : List String
  pools_len : staking_pools.length = 10

/-- The persistent contract state (`struct Teller` of `src/lib.rs`):
`t0` is the initial timestamp in ns, `locked` the yocto-NEAR either
retrieved or forgone. -/
structure Teller where
  t0 : Nat
  locked : Nat
deriving DecidableEq, Repr

/-- The ambient NEAR environment values read by the contract. -/
structure Env where
  current_account_id : AccountId
  predecessor_account_id : AccountId
  block_timestamp : Nat
deriving DecidableEq, Repr

/-- Outbound promise actions submitted by the contract:
`promise_batch_action_transfer` and
`promise_batch_action_function_call_weight` (method name, attached deposit,
gas, gas weight; the argument blob is always empty in this contract). -/
inductive Action where
  | transfer (receiver : AccountId) (yocto : Balance)
  | functionCallWeight (receiver : AccountId) (method : String)
      (deposit : Balance) (gas : Nat) (gasWeight : Nat)
deriving DecidableEq, Repr

/-- `Teller::init`: store the current block timestamp as `t0`, zero `locked`. -/
def Teller.init (env : Env) : Teller :=
  { t0 := env.block_timestamp, locked := 0 }

/-- `Teller::hot` (`src/lib.rs` lines 72-79): available balance in yocto.
`ns * nano_near_per_second` is in units of nNEAR·ns/s = 10⁻¹⁸ NEAR, hence
the extra factor 10⁶ to land in yocto (10⁻²⁴ NEAR). -/
def Teller.hot (c : Config) (env : Env) (st : Teller) : Balance :=
  (env.block_timestamp - st.t0) * c.nano_near_per_second * 10 ^ 6 - st.locked

/-- `Teller::check_access` (`src/implementation.rs` lines 95-101): only the
contract account itself may call. -/
def check_access (env : Env) : Except Error Unit :=
  if env.current_account_id = env.predecessor_account_id then
    .ok ()
  else
    .error .ForeignAccountNotAllowed

/-- `Teller::try_lock` (`src/implementation.rs` lines 103-110): refuse if the
requested amount exceeds `hot()`, otherwise add it to `locked`. -/
def Teller.try_lock (c : Config) (env : Env) (st : Teller) (yocto : Balance) :
    Except Error Teller :=
  if st.hot c env < yocto then
    .error .NotEnoughHot
  else
    .ok { st with locked := st.locked + yocto }

/-- `Teller::pay_impl` (`src/implementation.rs` lines 31-39): access check,
then `try_lock`, then submit a transfer promise. -/
def Teller.pay_impl (c : Config) (env : Env) (st : Teller) (yocto : Balance)
    (receiver : AccountId) : Except Error (Teller × List Action) :=
  match check_access env with
  | .error e => .error e
  | .ok () =>
    match st.try_lock c env yocto with
    | .error e => .error e
    | .ok st' => .ok (st', [Action.transfer receiver yocto])

/-- `Teller::lock_impl` (`src/implementation.rs` lines 41-45). -/
def Teller.lock_impl (c : Config) (env : Env) (st : Teller) (n : Balance) :
    Except Error (Teller × List Action) :=
  match check_access env with
  | .error e => .error e
  | .ok () =>
    match st.try_lock c env n with
    | .error e => .error e
    | .ok st' => .ok (st', [])

/-- `Teller::stake_impl` (`src/implementation.rs` lines 47-59): access check,
then a `deposit_and_stake` function-call promise with the amount attached,
`Gas(0)` and `GasWeight(1)`.  No ledger interaction. -/
def Teller.stake_impl (c : Config) (env : Env) (st : Teller) (yocto : Balance)
    (staking_pool : AccountId) : Except Error (Teller × List Action) :=
  match check_access env with
  | .error e => .error e
  | .ok () =>
    .ok (st, [Action.functionCallWeight staking_pool "deposit_and_stake" yocto 0 1])

/-- `Teller::unstake_impl` (`src/implementation.rs` lines 61-74):
`unstake_all` with zero attached balance, `Gas(0)`, `GasWeight(1)`. -/
def Teller.unstake_impl (c : Config) (env : Env) (st : Teller)
    (staking_pool : AccountId) : Except Error (Teller × List Action) :=
  match check_access env with
  | .error e => .error e
  | .ok () =>
    .ok (st, [Action.functionCallWeight staking_pool "unstake_all" 0 0 1])

/-- `Teller::withdraw_impl` (`src/implementation.rs` lines 76-89):
`withdraw_all` with zero attached balance, `Gas(0)`, `GasWeight(1)`. -/
def Teller.withdraw_impl (c : Config) (env : Env) (st : Teller)
    (staking_pool : AccountId) : Except Error (Teller × List Action) :=
  match check_access env with
  | .error e => .error e
  | .ok () =>
    .ok (st, [Action.functionCallWeight staking_pool "withdraw_all" 0 0 1])

/-- `staking_pool` (`src/lib.rs` lines 189-196): index the fixed pool list;
Rust panics on out-of-bounds access, modelled as `IndexOutOfBounds`.
(The subsequent `str::parse` into an `AccountId` cannot fail in this model,
where account ids are plain strings.) -/
def staking_pool (c : Config) (i : Nat) : Except Error AccountId :=
  match c.staking_pools.get? i with
  | some s => .ok s
  | none => .error .IndexOutOfBounds

/-- `Teller::pay` (`src/lib.rs` lines 55-61): whole NEAR to yocto by the
fixed factor 10²⁴, then `pay_impl`. -/
def Teller.pay (c : Config) (env : Env) (st : Teller) (n : Nat)
    (a : AccountId) : Except Error (Teller × List Action) :=
  st.pay_impl c env (n * 10 ^ 24) a

/-- `Teller::lock` (`src/lib.rs` lines 63-69). -/
def Teller.lock (c : Config) (env : Env) (st : Teller) (n : Nat) :
    Except Error (Teller × List Action) :=
  st.lock_impl c env (n * 10 ^ 24)

/-- `Teller::stake` (`src/lib.rs` lines 81-89).  Note the source resolves the
pool index (which can panic) before `stake_impl` runs the access check. -/
def Teller.stake (c : Config) (env : Env) (st : Teller) (i : Nat) (n : Nat) :
    Except Error (Teller × List Action) :=
  match staking_pool c i with
  | .error e => .error e
  | .ok pool => st.stake_impl c env (n * 10 ^ 24) pool

/-- `Teller::unstake` (`src/lib.rs` lines 91-98). -/
def Teller.unstake (c : Config) (env : Env) (st : Teller) (i : Nat) :
    Except Error (Teller × List Action) :=
  match staking_pool c i with
  | .error e => .error e
  | .ok pool => st.unstake_impl c env pool

/-- `Teller::withdraw` (`src/lib.rs` lines 100-107). -/
def Teller.withdraw (c : Config) (env : Env) (st : Teller) (i : Nat) :
    Except Error (Teller × List Action) :=
  match staking_pool c i with
  | .error e => .error e
  | .ok pool => st.withdraw_impl c env pool

/-! ## The public operation surface as a step function -/

/-- One public mutating entry point with its arguments. -/
inductive Op where
  | pay (n : Nat) (a : AccountId)
  | lock (n : Nat)
  | stake (i : Nat) (n : Nat)
  | unstake (i : Nat)
  | withdraw (i : Nat)
deriving DecidableEq, Repr

/-- Dispatch of one public call. -/
def step (c : Config) (env : Env) (st : Teller) : Op → Except Error (Teller × List Action)
  | .pay n a => st.pay c env n a
  | .lock n => st.lock c env n
  | .stake i n => st.stake c env i n
  | .unstake i => st.unstake c env i
  | .withdraw i => st.withdraw c env i

/-- The state after one public call.  A failing call panics in the source,
which aborts the whole NEAR call and discards every state change, so the
pre-call state survives. -/
def applyOp (c : Config) (st : Teller) (p : Env × Op) : Teller :=
  match step c p.1 st p.2 with
  | .ok (st', _) => st'
  | .error _ => st

/-- A whole lifetime of public calls applied in order. -/
def run (c : Config) (st : Teller) (ops : List (Env × Op)) : Teller :=
  ops.foldl (applyOp c) st

/-- The environment timestamps of a call trace are non-decreasing and start
no earlier than `t` (the NEAR block timestamp is monotone). -/
def Chrono (t : Nat) : List (Env × Op) → Prop
  | [] => True
  | p :: rest => t ≤ p.1.block_timestamp ∧ Chrono p.1.block_timestamp rest

/-- The last block timestamp of a call trace (or `t` for the empty trace). -/
def traceEnd (t : Nat) : List (Env × Op) → Nat
  | [] => t
  | p :: rest => traceEnd p.1.block_timestamp rest

/-! ## Base-unit (yocto) string variants -/

/-- Parse a decimal string (as a character list) into an unsigned integer:
non-empty, all digits, most significant digit first. -/
def parseDecimalChars (s : List Char) : Option Nat :=
  if s ≠ [] ∧ s.all Char.isDigit then
    some (s.foldl (fun a ch => a * 10 + (ch.toNat - 48)) 0)
  else
    none

/-- Modelled from the spec: the base-unit variant `pay_base` (called
`pay_yocto` in the unit tests) is not among the sources; per spec §6 it takes
the amount as a base-unit decimal string, fails if the string does not parse
as an unsigned integer, and otherwise behaves like the core pay operation on
the parsed yocto amount. -/
def Teller.pay_yocto (c : Config) (env : Env) (st : Teller) (s : List Char)
    (a : AccountId) : Except Error (Teller × List Action) :=
  match parseDecimalChars s with
  | some y => st.pay_impl c env y a
  | none => .error .MalformedAmount

/-- The canonical decimal string of a number (most significant digit first). -/
def decimalChars (m : Nat) : List Char :=
  if m = 0 then [Nat.digitChar 0]
  else (Nat.digits 10 m).reverse.map Nat.digitChar

/-- The effective accrual factor in yocto per nanosecond:
`nano_near_per_second * 10⁶` (see the unit computation in `hot`). -/
def nsRate (c : Config) : Nat := c.nano_near_per_second * 10 ^ 6

/-- A concrete configuration for evaluating theorems on closed inputs. -/
def testPools : List String :=
  ["pool0.near", "pool1.near", "pool2.near", "pool3.near", "pool4.near",
   "pool5.near", "pool6.near", "pool7.near", "pool8.near", "pool9.near"]

/-- A concrete configuration with rate 1 nano-NEAR per second. -/
def testConfig : Config := ⟨1, testPools, rfl⟩

/-- A self-call environment at time `t`. -/
def selfEnv (t : Nat) : Env := ⟨"teller.near", "teller.near", t⟩

/-- A foreign-caller environment at time `t`. -/
def foreignEnv (t : Nat) : Env := ⟨"teller.near", "max.near", t⟩

/-! ## Helper lemmas -/

lemma digitChar_isDigit {d : Nat} (h : d < 10) : (Nat.digitChar d).isDigit := by
  interval_cases d <;> decide

lemma digitChar_toNat {d : Nat} (h : d < 10) : (Nat.digitChar d).toNat - 48 = d := by
  interval_cases d <;> decide

lemma foldl_map_digitChar (l : List Nat) (h : ∀ d ∈ l, d < 10) (a : Nat) :
    (l.map Nat.digitChar).foldl (fun a ch => a * 10 + (ch.toNat - 48)) a
      = l.foldl (fun a d => a * 10 + d) a := by
  induction l generalizing a with
  | nil => rfl
  | cons d L ih =>
    simp only [List.map_cons, List.foldl_cons]
    rw [digitChar_toNat (h d (List.mem_cons_self d L))]
    exact ih (fun x hx => h x (List.mem_cons_of_mem d hx)) _

lemma foldl_ten_reverse (l : List Nat) :
    l.reverse.foldl (fun a d => a * 10 + d) 0 = Nat.ofDigits 10 l := by
  induction l with
  | nil => simp [Nat.ofDigits_nil]
  | cons d L ih =>
    simp only [List.reverse_cons, List.foldl_append, List.foldl_cons, List.foldl_nil, ih,
      Nat.ofDigits_cons]
    omega

lemma parse_decimalChars (m : Nat) : parseDecimalChars (decimalChars m) = some m := by
  rcases Nat.eq_zero_or_pos m with h0 | h0
  · subst h0
    decide
  · have hne : Nat.digits 10 m ≠ [] := Nat.digits_ne_nil_iff_ne_zero.mpr (Nat.pos_iff_ne_zero.mp h0)
    have hlt : ∀ d ∈ Nat.digits 10 m, d < 10 := fun d hd => Nat.digits_lt_base (by norm_num) hd
    unfold decimalChars parseDecimalChars
    rw [if_neg (Nat.pos_iff_ne_zero.mp h0), if_pos]
    · rw [foldl_map_digitChar _ (fun d hd => hlt d (List.mem_reverse.mp hd)) 0,
        foldl_ten_reverse, Nat.ofDigits_digits]
    · constructor
      · simp [hne]
      · rw [List.all_eq_true]
        intro ch hch
        rcases List.mem_map.mp hch with ⟨d, hd, rfl⟩
        exact digitChar_isDigit (hlt d (List.mem_reverse.mp hd))

lemma try_lock_error_iff (c : Config) (env : Env) (st : Teller) (y : Balance) :
    st.try_lock c env y = Except.error Error.NotEnoughHot ↔ st.hot c env < y := by
  unfold Teller.try_lock
  split <;> simp_all

lemma try_lock_ok_of_le (c : Config) (env : Env) (st : Teller) (y : Balance)
    (h : y ≤ st.hot c env) :
    st.try_lock c env y = Except.ok { st with locked := st.locked + y } := by
  unfold Teller.try_lock
  rw [if_neg (not_lt.mpr h)]

lemma try_lock_ok_inv (c : Config) (env : Env) (st st' : Teller) (y : Balance)
    (h : st.try_lock c env y = Except.ok st') :
    st' = { st with locked := st.locked + y } ∧ y ≤ st.hot c env := by
  unfold Teller.try_lock at h
  by_cases hlt : st.hot c env < y
  · rw [if_pos hlt] at h
    exact absurd h (by simp)
  · rw [if_neg hlt] at h
    refine ⟨?_, not_lt.mp hlt⟩
    injection h with h
    exact h.symm

lemma check_access_ok_iff (env : Env) :
    check_access env = Except.ok () ↔ env.current_account_id = env.predecessor_account_id := by
  unfold check_access
  split <;> simp_all

lemma check_access_foreign (env : Env)
    (h : env.current_account_id ≠ env.predecessor_account_id) :
    check_access env = Except.error Error.ForeignAccountNotAllowed := by
  unfold check_access
  rw [if_neg h]

/-- Every public call either leaves the state unchanged or turns it into a
successful `try_lock` result: `try_lock` is the sole mutator. -/
lemma applyOp_eq_or_try_lock (c : Config) (st : Teller) (p : Env × Op) :
    applyOp c st p = st ∨
      ∃ y, st.try_lock c p.1 y = Except.ok (applyOp c st p) := by
  obtain ⟨env, op⟩ := p
  cases op with
  | pay n a =>
    simp only [applyOp, step, Teller.pay, Teller.pay_impl]
    cases check_access env with
    | error e => left; rfl
    | ok u =>
      cases htl : st.try_lock c env (n * 10 ^ 24) with
      | error e => left; rfl
      | ok st' => right; exact ⟨n * 10 ^ 24, htl⟩
  | lock n =>
    simp only [applyOp, step, Teller.lock, Teller.lock_impl]
    cases check_access env with
    | error e => left; rfl
    | ok u =>
      cases htl : st.try_lock c env (n * 10 ^ 24) with
      | error e => left; rfl
      | ok st' => right; exact ⟨n * 10 ^ 24, htl⟩
  | stake i n =>
    simp only [applyOp, step, Teller.stake]
    cases staking_pool c i with
    | error e => left; rfl
    | ok pool =>
      simp only [Teller.stake_impl]
      cases check_access env with
      | error e => left; rfl
      | ok u => left; rfl
  | unstake i =>
    simp only [applyOp, step, Teller.unstake]
    cases staking_pool c i with
    | error e => left; rfl
    | ok pool =>
      simp only [Teller.unstake_impl]
      cases check_access env with
      | error e => left; rfl
      | ok u => left; rfl
  | withdraw i =>
    simp only [applyOp, step, Teller.withdraw]
    cases staking_pool c i with
    | error e => left; rfl
    | ok pool =>
      simp only [Teller.withdraw_impl]
      cases check_access env with
      | error e => left; rfl
      | ok u => left; rfl

lemma applyOp_t0 (c : Config) (st : Teller) (p : Env × Op) :
    (applyOp c st p).t0 = st.t0 := by
  rcases applyOp_eq_or_try_lock c st p with h | ⟨y, h⟩
  · rw [h]
  · rw [(try_lock_ok_inv c p.1 st _ y h).1]

lemma applyOp_locked_mono (c : Config) (st : Teller) (p : Env × Op) :
    st.locked ≤ (applyOp c st p).locked := by
  rcases applyOp_eq_or_try_lock c st p with h | ⟨y, h⟩
  · rw [h]
  · rw [(try_lock_ok_inv c p.1 st _ y h).1]
    exact Nat.le_add_right _ _

/-- One call preserves the allowance invariant at the call's own timestamp. -/
lemma applyOp_inv (c : Config) (st : Teller) (env : Env) (op : Op)
    (hinv : st.locked ≤ (env.block_timestamp - st.t0) * c.nano_near_per_second * 10 ^ 6) :
    (applyOp c st (env, op)).locked
      ≤ (env.block_timestamp - st.t0) * c.nano_near_per_second * 10 ^ 6 := by
  rcases applyOp_eq_or_try_lock c st (env, op) with h | ⟨y, h⟩
  · rw [h]; exact hinv
  · obtain ⟨hst, hy⟩ := try_lock_ok_inv c env st _ y h
    rw [hst]
    unfold Teller.hot at hy
    simp only
    generalize (env.block_timestamp - st.t0) * c.nano_near_per_second * 10 ^ 6 = A at hinv hy ⊢
    calc st.locked + y ≤ st.locked + (A - st.locked) := Nat.add_le_add_left hy _
      _ = A := Nat.add_sub_cancel' hinv

lemma run_t0 (c : Config) (ops : List (Env × Op)) (st : Teller) :
    (run c st ops).t0 = st.t0 := by
  induction ops generalizing st with
  | nil => rfl
  | cons p rest ih =>
    show (run c (applyOp c st p) rest).t0 = st.t0
    rw [ih, applyOp_t0]

lemma run_locked_mono (c : Config) (ops : List (Env × Op)) (st : Teller) :
    st.locked ≤ (run c st ops).locked := by
  induction ops generalizing st with
  | nil => exact le_refl _
  | cons p rest ih =>
    exact le_trans (applyOp_locked_mono c st p) (ih (applyOp c st p))

lemma avail_mono (c : Config) (t0 t t' : Nat) (h : t ≤ t') :
    (t - t0) * c.nano_near_per_second * 10 ^ 6
      ≤ (t' - t0) * c.nano_near_per_second * 10 ^ 6 :=
  Nat.mul_le_mul_right _ (Nat.mul_le_mul_right _ (Nat.sub_le_sub_right h _))

lemma chrono_traceEnd (ops : List (Env × Op)) (t : Nat) (h : Chrono t ops) :
    t ≤ traceEnd t ops := by
  induction ops generalizing t with
  | nil => exact le_refl _
  | cons p rest ih =>
    exact le_trans h.1 (ih p.1.block_timestamp h.2)

/-- The allowance invariant holds along any chronological call trace. -/
lemma run_inv (c : Config) (ops : List (Env × Op)) (st : Teller) (t : Nat)
    (hchrono : Chrono t ops) (ht0 : st.t0 ≤ t)
    (hinv : st.locked ≤ (t - st.t0) * c.nano_near_per_second * 10 ^ 6) :
    (run c st ops).locked
      ≤ (traceEnd t ops - st.t0) * c.nano_near_per_second * 10 ^ 6 := by
  induction ops generalizing st t with
  | nil => exact hinv
  | cons p rest ih =>
    obtain ⟨env, op⟩ := p
    obtain ⟨h1, h2⟩ := hchrono
    have hinv' : (applyOp c st (env, op)).locked
        ≤ (env.block_timestamp - st.t0) * c.nano_near_per_second * 10 ^ 6 :=
      applyOp_inv c st env op (le_trans hinv (avail_mono c st.t0 t env.block_timestamp h1))
    have ht0' : (applyOp c st (env, op)).t0 ≤ env.block_timestamp := by
      rw [applyOp_t0]; exact le_trans ht0 h1
    have := ih (applyOp c st (env, op)) env.block_timestamp h2 ht0'
      (by rw [applyOp_t0]; exact hinv')
    rw [applyOp_t0] at this
    exact this

lemma staking_pool_oob (c : Config) (i : Nat) (h : 10 ≤ i) :
    staking_pool c i = Except.error Error.IndexOutOfBounds := by
  unfold staking_pool
  rw [List.get?_eq_none.mpr (by rw [c.pools_len]; exact h)]

lemma staking_pool_in_range (c : Config) (i : Nat) (h : i < 10) :
    staking_pool c i
      = Except.ok (c.staking_pools.get ⟨i, by rw [c.pools_len]; exact h⟩) := by
  unfold staking_pool
  rw [List.get?_eq_get (by rw [c.pools_len]; exact h)]

lemma applyOp_stake_eq (c : Config) (st : Teller) (env : Env) (j m : Nat) :
    applyOp c st (env, Op.stake j m) = st := by
  simp only [applyOp, step, Teller.stake]
  cases hsp : staking_pool c j with
  | error e => rfl
  | ok pool =>
    simp only [Teller.stake_impl]
    cases check_access env <;> rfl

lemma applyOp_unstake_eq (c : Config) (st : Teller) (env : Env) (j : Nat) :
    applyOp c st (env, Op.unstake j) = st := by
  simp only [applyOp, step, Teller.unstake]
  cases hsp : staking_pool c j with
  | error e => rfl
  | ok pool =>
    simp only [Teller.unstake_impl]
    cases check_access env <;> rfl

lemma applyOp_withdraw_eq (c : Config) (st : Teller) (env : Env) (j : Nat) :
    applyOp c st (env, Op.withdraw j) = st := by
  simp only [applyOp, step, Teller.withdraw]
  cases hsp : staking_pool c j with
  | error e => rfl
  | ok pool =>
    simp only [Teller.withdraw_impl]
    cases check_access env <;> rfl

lemma applyOp_def (c : Config) (st : Teller) (env : Env) (op : Op) :
    applyOp c st (env, op)
      = match step c env st op with
        | Except.ok (st', _) => st'
        | Except.error _ => st := rfl

lemma step_pay (c : Config) (st : Teller) (env : Env) (n : Nat) (a : AccountId) :
    step c env st (Op.pay n a) = st.pay_impl c env (n * 10 ^ 24) a := rfl

lemma step_lock (c : Config) (st : Teller) (env : Env) (n : Nat) :
    step c env st (Op.lock n) = st.lock_impl c env (n * 10 ^ 24) := rfl

lemma pay_impl_foreign (c : Config) (env : Env) (st : Teller) (y : Balance)
    (a : AccountId) (hf : env.current_account_id ≠ env.predecessor_account_id) :
    st.pay_impl c env y a = Except.error Error.ForeignAccountNotAllowed := by
  unfold Teller.pay_impl
  rw [check_access_foreign env hf]

lemma lock_impl_foreign (c : Config) (env : Env) (st : Teller) (y : Balance)
    (hf : env.current_account_id ≠ env.predecessor_account_id) :
    st.lock_impl c env y = Except.error Error.ForeignAccountNotAllowed := by
  unfold Teller.lock_impl
  rw [check_access_foreign env hf]

lemma stake_impl_foreign (c : Config) (env : Env) (st : Teller) (y : Balance)
    (pool : AccountId) (hf : env.current_account_id ≠ env.predecessor_account_id) :
    st.stake_impl c env y pool = Except.error Error.ForeignAccountNotAllowed := by
  unfold Teller.stake_impl
  rw [check_access_foreign env hf]

lemma unstake_impl_foreign (c : Config) (env : Env) (st : Teller)
    (pool : AccountId) (hf : env.current_account_id ≠ env.predecessor_account_id) :
    st.unstake_impl c env pool = Except.error Error.ForeignAccountNotAllowed := by
  unfold Teller.unstake_impl
  rw [check_access_foreign env hf]

lemma withdraw_impl_foreign (c : Config) (env : Env) (st : Teller)
    (pool : AccountId) (hf : env.current_account_id ≠ env.predecessor_account_id) :
    st.withdraw_impl c env pool = Except.error Error.ForeignAccountNotAllowed := by
  unfold Teller.withdraw_impl
  rw [check_access_foreign env hf]

lemma pay_impl_notEnoughHot (c : Config) (env : Env) (st : Teller) (y : Balance)
    (a : AccountId) (hacc : check_access env = Except.ok ())
    (hlt : st.hot c env < y) :
    st.pay_impl c env y a = Except.error Error.NotEnoughHot := by
  unfold Teller.pay_impl
  rw [hacc, (try_lock_error_iff c env st y).mpr hlt]

lemma lock_impl_notEnoughHot (c : Config) (env : Env) (st : Teller) (y : Balance)
    (hacc : check_access env = Except.ok ()) (hlt : st.hot c env < y) :
    st.lock_impl c env y = Except.error Error.NotEnoughHot := by
  unfold Teller.lock_impl
  rw [hacc, (try_lock_error_iff c env st y).mpr hlt]

lemma pay_impl_ok (c : Config) (env : Env) (st : Teller) (y : Balance)
    (a : AccountId) (hacc : check_access env = Except.ok ())
    (hle : y ≤ st.hot c env) :
    st.pay_impl c env y a
      = Except.ok ({ st with locked := st.locked + y }, [Action.transfer a y]) := by
  unfold Teller.pay_impl
  rw [hacc, try_lock_ok_of_le c env st y hle]

lemma lock_impl_ok (c : Config) (env : Env) (st : Teller) (y : Balance)
    (hacc : check_access env = Except.ok ()) (hle : y ≤ st.hot c env) :
    st.lock_impl c env y = Except.ok ({ st with locked := st.locked + y }, []) := by
  unfold Teller.lock_impl
  rw [hacc, try_lock_ok_of_le c env st y hle]

lemma stake_impl_ok (c : Config) (env : Env) (st : Teller) (y : Balance)
    (pool : AccountId) (hacc : check_access env = Except.ok ()) :
    st.stake_impl c env y pool
      = Except.ok (st, [Action.functionCallWeight pool "deposit_and_stake" y 0 1]) := by
  unfold Teller.stake_impl
  rw [hacc]

lemma unstake_impl_ok (c : Config) (env : Env) (st : Teller)
    (pool : AccountId) (hacc : check_access env = Except.ok ()) :
    st.unstake_impl c env pool
      = Except.ok (st, [Action.functionCallWeight pool "unstake_all" 0 0 1]) := by
  unfold Teller.unstake_impl
  rw [hacc]

lemma withdraw_impl_ok (c : Config) (env : Env) (st : Teller)
    (pool : AccountId) (hacc : check_access env = Except.ok ()) :
    st.withdraw_impl c env pool
      = Except.ok (st, [Action.functionCallWeight pool "withdraw_all" 0 0 1]) := by
  unfold Teller.withdraw_impl
  rw [hacc]

lemma hot_mk (c : Config) (s p : AccountId) (T L : Nat) :
    Teller.hot c ⟨s, p, T⟩ (Teller.mk 0 L) = T * nsRate c - L := by
  unfold Teller.hot nsRate
  simp [Nat.mul_assoc]

/-! ## Claims -/

/-- Claim C2: `try_lock` fails with `NotEnoughHot` exactly when the requested
amount exceeds `hot()`, leaving the state unchanged (the panic discards the
call); otherwise it succeeds and increases `locked` by exactly the amount.
The same holds for `pay` and `lock` once the access check passes, and
`try_lock` is the sole mutator of `locked`: every public call either keeps
the state or produces a successful `try_lock` result. -/
theorem claim_C2 (c : Config) (env : Env) (st : Teller) (yocto : Balance)
    (n : Nat) (a : AccountId) :
    (st.try_lock c env yocto = Except.error Error.NotEnoughHot ↔ st.hot c env < yocto)
    ∧ (yocto ≤ st.hot c env →
        st.try_lock c env yocto = Except.ok { st with locked := st.locked + yocto })
    ∧ (check_access env = Except.ok () →
        (st.pay c env n a = Except.error Error.NotEnoughHot ↔ st.hot c env < n * 10 ^ 24)
        ∧ (st.lock c env n = Except.error Error.NotEnoughHot ↔ st.hot c env < n * 10 ^ 24)
        ∧ (st.hot c env < n * 10 ^ 24 →
            applyOp c st (env, Op.pay n a) = st ∧ applyOp c st (env, Op.lock n) = st)
        ∧ (n * 10 ^ 24 ≤ st.hot c env →
            (applyOp c st (env, Op.pay n a)).locked = st.locked + n * 10 ^ 24
            ∧ (applyOp c st (env, Op.lock n)).locked = st.locked + n * 10 ^ 24))
    ∧ (∀ op : Op, applyOp c st (env, op) = st
        ∨ ∃ y, st.try_lock c env y = Except.ok (applyOp c st (env, op))) := by
  refine ⟨try_lock_error_iff c env st yocto, try_lock_ok_of_le c env st yocto, ?_, ?_⟩
  · intro hacc
    by_cases hlt : st.hot c env < n * 10 ^ 24
    · have hpay := pay_impl_notEnoughHot c env st (n * 10 ^ 24) a hacc hlt
      have hlock := lock_impl_notEnoughHot c env st (n * 10 ^ 24) hacc hlt
      refine ⟨?_, ?_, fun _ => ⟨?_, ?_⟩, fun hle => absurd hlt (not_lt.mpr hle)⟩
      · unfold Teller.pay; rw [hpay]; exact iff_of_true rfl hlt
      · unfold Teller.lock; rw [hlock]; exact iff_of_true rfl hlt
      · rw [applyOp_def, step_pay, hpay]
      · rw [applyOp_def, step_lock, hlock]
    · have hle := not_lt.mp hlt
      have hpay := pay_impl_ok c env st (n * 10 ^ 24) a hacc hle
      have hlock := lock_impl_ok c env st (n * 10 ^ 24) hacc hle
      refine ⟨?_, ?_, fun h => absurd h hlt, fun _ => ⟨?_, ?_⟩⟩
      · unfold Teller.pay; rw [hpay]
        exact iff_of_false (fun h => Except.noConfusion h) hlt
      · unfold Teller.lock; rw [hlock]
        exact iff_of_false (fun h => Except.noConfusion h) hlt
      · rw [applyOp_def, step_pay, hpay]
      · rw [applyOp_def, step_lock, hlock]
  · intro op
    exact applyOp_eq_or_try_lock c st (env, op)

/-- Witness for C2 at concrete inputs: at `t = 5` with rate 1 nano/s the
instance has `hot = 5000000`, so locking 3 yocto succeeds and adds 3. -/
theorem claim_C2_witness :
    (Teller.init (selfEnv 0)).try_lock testConfig (selfEnv 5) 3
      = Except.ok { t0 := 0, locked := 3 } := by
  have h := claim_C2 testConfig (selfEnv 5) (Teller.init (selfEnv 0)) 3 0 "max.near"
  exact h.2.1 (by decide)

/-- Claim C4: `hot()` computes `(now - t0) * rate - locked` in base units,
where the per-nanosecond factor is `nano_near_per_second * 10⁶`; the value is
exact (no truncation) whenever `t0 ≤ now` and the allowance invariant holds,
and on a fresh state it equals `Δt * rate` for every elapsed time `Δt`. -/
theorem claim_C4 (c : Config) (st : Teller) (env env0 : Env) :
    (st.t0 ≤ env.block_timestamp →
      st.locked ≤ (env.block_timestamp - st.t0) * c.nano_near_per_second * 10 ^ 6 →
      (st.hot c env : ℤ)
        = ((env.block_timestamp : ℤ) - st.t0) * c.nano_near_per_second * 10 ^ 6
          - st.locked)
    ∧ (∀ (dt : Nat) (envF : Env),
        envF.block_timestamp = env0.block_timestamp + dt →
        (Teller.init env0).hot c envF = dt * nsRate c) := by
  constructor
  · intro ht hlocked
    unfold Teller.hot
    rw [Nat.cast_sub hlocked]
    push_cast [Nat.cast_sub ht]
    ring
  · intro dt envF h
    simp [Teller.hot, Teller.init, nsRate, h, Nat.add_sub_cancel_left, Nat.mul_assoc]

/-- Witness for C4: a fresh instance observed 7 ns later has accrued
`7 * nsRate`. -/
theorem claim_C4_witness :
    (Teller.init (selfEnv 0)).hot testConfig (selfEnv 7) = 7 * nsRate testConfig := by
  have h := claim_C4 testConfig (Teller.init (selfEnv 0)) (selfEnv 7) (selfEnv 0)
  exact h.2 7 (selfEnv 7) rfl

/-- Claim C5: once the access check passes, `stake_impl` succeeds for every
amount (also amounts exceeding `hot()`), dispatching `deposit_and_stake`; for
a valid pool index the public `stake` succeeds as well.  `stake`, `unstake`
and `withdraw` never touch the allowance ledger: they leave `t0` and `locked`
unchanged unconditionally. -/
theorem claim_C5 (c : Config) (env : Env) (st : Teller) (yocto : Balance)
    (pool : AccountId) (i n : Nat)
    (hacc : check_access env = Except.ok ()) :
    st.stake_impl c env yocto pool
      = Except.ok (st, [Action.functionCallWeight pool "deposit_and_stake" yocto 0 1])
    ∧ (i < 10 → ∃ p, staking_pool c i = Except.ok p
        ∧ st.stake c env i n
            = Except.ok (st,
                [Action.functionCallWeight p "deposit_and_stake" (n * 10 ^ 24) 0 1]))
    ∧ (∀ (j m : Nat), applyOp c st (env, Op.stake j m) = st
        ∧ applyOp c st (env, Op.unstake j) = st
        ∧ applyOp c st (env, Op.withdraw j) = st) := by
  refine ⟨?_, ?_, ?_⟩
  · simp [Teller.stake_impl, hacc]
  · intro hi
    refine ⟨_, staking_pool_in_range c i hi, ?_⟩
    simp [Teller.stake, staking_pool_in_range c i hi, Teller.stake_impl, hacc]
  · intro j m
    exact ⟨applyOp_stake_eq c st env j m, applyOp_unstake_eq c st env j,
      applyOp_withdraw_eq c st env j⟩

/-- Witness for C5: staking more than the entire accrued allowance still
succeeds on a fresh instance. -/
theorem claim_C5_witness :
    (Teller.init (selfEnv 0)).stake_impl testConfig (selfEnv 5) (10 ^ 30) "pool0.near"
      = Except.ok (Teller.init (selfEnv 0),
          [Action.functionCallWeight "pool0.near" "deposit_and_stake" (10 ^ 30) 0 1]) := by
  have h := claim_C5 testConfig (selfEnv 5) (Teller.init (selfEnv 0)) (10 ^ 30)
    "pool0.near" 0 0 ((check_access_ok_iff (selfEnv 5)).mpr rfl)
  exact h.1

/-- Claim C6: an out-of-range pool index (≥ 10 in this instance) makes
`stake`, `unstake` and `withdraw` fail fatally: no dispatch is attempted (the
result is an error carrying no actions) and the state is unchanged. -/
theorem claim_C6 (c : Config) (env : Env) (st : Teller) (i n : Nat)
    (h : 10 ≤ i) :
    st.stake c env i n = Except.error Error.IndexOutOfBounds
    ∧ st.unstake c env i = Except.error Error.IndexOutOfBounds
    ∧ st.withdraw c env i = Except.error Error.IndexOutOfBounds
    ∧ applyOp c st (env, Op.stake i n) = st
    ∧ applyOp c st (env, Op.unstake i) = st
    ∧ applyOp c st (env, Op.withdraw i) = st := by
  have hsp := staking_pool_oob c i h
  exact ⟨by simp [Teller.stake, hsp], by simp [Teller.unstake, hsp],
    by simp [Teller.withdraw, hsp], applyOp_stake_eq c st env i n,
    applyOp_unstake_eq c st env i, applyOp_withdraw_eq c st env i⟩

/-- Witness for C6 at pool index 10. -/
theorem claim_C6_witness :
    (Teller.init (selfEnv 0)).stake testConfig (selfEnv 5) 10 1
      = Except.error Error.IndexOutOfBounds := by
  have h := claim_C6 testConfig (selfEnv 5) (Teller.init (selfEnv 0)) 10 1 (by decide)
  exact h.1

/-- Claim C7: dispatcher construction.  After access passes, `stake_impl`
submits `deposit_and_stake` on the pool with the amount attached, zero
reserved gas and gas weight 1; `unstake_impl` submits `unstake_all` and
`withdraw_impl` submits `withdraw_all`, both with no value attached and the
same gas policy. -/
theorem claim_C7 (c : Config) (env : Env) (st : Teller) (yocto : Balance)
    (pool : AccountId) (hacc : check_access env = Except.ok ()) :
    st.stake_impl c env yocto pool
      = Except.ok (st, [Action.functionCallWeight pool "deposit_and_stake" yocto 0 1])
    ∧ st.unstake_impl c env pool
      = Except.ok (st, [Action.functionCallWeight pool "unstake_all" 0 0 1])
    ∧ st.withdraw_impl c env pool
      = Except.ok (st, [Action.functionCallWeight pool "withdraw_all" 0 0 1]) := by
  exact ⟨by simp [Teller.stake_impl, hacc], by simp [Teller.unstake_impl, hacc],
    by simp [Teller.withdraw_impl, hacc]⟩

/-- Witness for C7. -/
theorem claim_C7_witness :
    (Teller.init (selfEnv 0)).unstake_impl testConfig (selfEnv 5) "pool0.near"
      = Except.ok (Teller.init (selfEnv 0),
          [Action.functionCallWeight "pool0.near" "unstake_all" 0 0 1]) := by
  have h := claim_C7 testConfig (selfEnv 5) (Teller.init (selfEnv 0)) 0 "pool0.near"
    ((check_access_ok_iff (selfEnv 5)).mpr rfl)
  exact h.2.1

/-- Claim C10: `pay(0)` and `lock(0)` succeed whenever the access check
passes, even on a state with `hot() = 0` (the allowance comparison is
strict), leaving `locked` — and hence `hot()` — unchanged; `pay(0)` still
dispatches a transfer of zero value. -/
theorem claim_C10 (c : Config) (env : Env) (st : Teller) (a : AccountId)
    (hacc : check_access env = Except.ok ()) :
    st.pay c env 0 a = Except.ok (st, [Action.transfer a 0])
    ∧ st.lock c env 0 = Except.ok (st, [])
    ∧ st.try_lock c env 0 = Except.ok st := by
  have htl : st.try_lock c env 0 = Except.ok st := by
    unfold Teller.try_lock
    rw [if_neg (Nat.not_lt_zero _)]
    cases st
    simp
  have h0 : (0 : Nat) * 10 ^ 24 = 0 := Nat.zero_mul _
  have hpay := pay_impl_ok c env st 0 a hacc (Nat.zero_le _)
  have hlock := lock_impl_ok c env st 0 hacc (Nat.zero_le _)
  have hse : ({ st with locked := st.locked + 0 } : Teller) = st := by
    cases st
    simp
  rw [hse] at hpay hlock
  refine ⟨?_, ?_, htl⟩
  · unfold Teller.pay; rw [h0, hpay]
  · unfold Teller.lock; rw [h0, hlock]

/-- Claim C1: along any lifetime of public calls with non-decreasing
environment timestamps, `t0` stays at its initialization value and no single
operation ever decreases `locked`; at any observation no earlier than the
trace, `locked ≤ (now - t0) * rate` holds, so both subtractions in `hot()`
are exact — `hot` equals the allowance difference computed in `ℤ`, i.e. it
never underflows. -/
theorem claim_C1 (c : Config) (env0 : Env) (ops : List (Env × Op)) (envF : Env)
    (hchrono : Chrono env0.block_timestamp ops)
    (hF : traceEnd env0.block_timestamp ops ≤ envF.block_timestamp) :
    (run c (Teller.init env0) ops).t0 = env0.block_timestamp
    ∧ (∀ (st : Teller) (p : Env × Op),
        st.locked ≤ (applyOp c st p).locked ∧ (applyOp c st p).t0 = st.t0)
    ∧ (run c (Teller.init env0) ops).locked
        ≤ (envF.block_timestamp - env0.block_timestamp) * c.nano_near_per_second * 10 ^ 6
    ∧ ((run c (Teller.init env0) ops).hot c envF : ℤ)
        = ((envF.block_timestamp - env0.block_timestamp) * c.nano_near_per_second
            * 10 ^ 6 : ℕ)
          - ((run c (Teller.init env0) ops).locked : ℤ) := by
  have ht0 : (run c (Teller.init env0) ops).t0 = env0.block_timestamp := by
    rw [run_t0]
    rfl
  have hrun := run_inv c ops (Teller.init env0) env0.block_timestamp hchrono
    (le_refl _) (Nat.zero_le _)
  have hlocked : (run c (Teller.init env0) ops).locked
      ≤ (envF.block_timestamp - env0.block_timestamp) * c.nano_near_per_second
        * 10 ^ 6 := by
    refine le_trans hrun ?_
    exact avail_mono c (Teller.init env0).t0 (traceEnd env0.block_timestamp ops)
      envF.block_timestamp hF
  refine ⟨ht0, fun st p => ⟨applyOp_locked_mono c st p, applyOp_t0 c st p⟩,
    hlocked, ?_⟩
  unfold Teller.hot
  rw [ht0]
  exact Nat.cast_sub hlocked

/-- Witness for C1 on a two-call trace with rate 1. -/
theorem claim_C1_witness :
    (run testConfig (Teller.init (selfEnv 0))
        [(selfEnv 5, Op.lock 0), (selfEnv 7, Op.pay 0 "max.near")]).t0 = 0 := by
  have h := claim_C1 testConfig (selfEnv 0)
    [(selfEnv 5, Op.lock 0), (selfEnv 7, Op.pay 0 "max.near")] (selfEnv 9)
    ⟨by decide, by decide, trivial⟩ (by decide)
  exact h.1

/-- Claim C9: `pay(n)` converts whole units to base units by the fixed scale
factor `10²⁴`, and it produces exactly the same result (ledger effect,
dispatched transfer, and failure conditions) as the base-unit variant applied
to the decimal string of `n * 10²⁴`. -/
theorem claim_C9 (c : Config) (env : Env) (st : Teller) (n : Nat)
    (a : AccountId) :
    st.pay c env n a = st.pay_impl c env (n * 10 ^ 24) a
    ∧ st.pay c env n a = st.pay_yocto c env (decimalChars (n * 10 ^ 24)) a := by
  refine ⟨rfl, ?_⟩
  unfold Teller.pay Teller.pay_yocto
  rw [parse_decimalChars]

/-- Counterexample to claim C3 as stated: with a foreign caller and an
out-of-range pool index, `stake` fails with the fatal index error, not with
`ForeignAccountNotAllowed` — the pool lookup in the public wrapper runs
before the access check. -/
theorem claim_C3_cex :
    Teller.stake testConfig (foreignEnv 5) (Teller.mk 0 0) 10 1
      = Except.error Error.IndexOutOfBounds
    ∧ Error.IndexOutOfBounds ≠ Error.ForeignAccountNotAllowed := by
  exact ⟨rfl, by decide⟩

/-- Claim C3 (amended): every operation other than `hot()` invoked by a
foreign caller fails with `ForeignAccountNotAllowed` and no state change,
regardless of the amount, provided — for `stake`/`unstake`/`withdraw` — the
pool index is in range; for an out-of-range index those three fail with the
fatal index error instead, because the public wrappers resolve the pool index
before the core implementations run the access check.  In every case the
state is unchanged. -/
theorem claim_C3 (c : Config) (env : Env) (st : Teller) (n i : Nat)
    (a : AccountId)
    (hforeign : env.current_account_id ≠ env.predecessor_account_id) :
    st.pay c env n a = Except.error Error.ForeignAccountNotAllowed
    ∧ st.lock c env n = Except.error Error.ForeignAccountNotAllowed
    ∧ (i < 10 →
        st.stake c env i n = Except.error Error.ForeignAccountNotAllowed
        ∧ st.unstake c env i = Except.error Error.ForeignAccountNotAllowed
        ∧ st.withdraw c env i = Except.error Error.ForeignAccountNotAllowed)
    ∧ (10 ≤ i →
        st.stake c env i n = Except.error Error.IndexOutOfBounds
        ∧ st.unstake c env i = Except.error Error.IndexOutOfBounds
        ∧ st.withdraw c env i = Except.error Error.IndexOutOfBounds)
    ∧ (∀ op : Op, applyOp c st (env, op) = st) := by
  refine ⟨?_, ?_, ?_, ?_, ?_⟩
  · unfold Teller.pay
    exact pay_impl_foreign c env st _ a hforeign
  · unfold Teller.lock
    exact lock_impl_foreign c env st _ hforeign
  · intro hi
    have hsp := staking_pool_in_range c i hi
    exact ⟨by simp [Teller.stake, hsp, stake_impl_foreign c env st _ _ hforeign],
      by simp [Teller.unstake, hsp, unstake_impl_foreign c env st _ hforeign],
      by simp [Teller.withdraw, hsp, withdraw_impl_foreign c env st _ hforeign]⟩
  · intro hi
    have hsp := staking_pool_oob c i hi
    exact ⟨by simp [Teller.stake, hsp], by simp [Teller.unstake, hsp],
      by simp [Teller.withdraw, hsp]⟩
  · intro op
    cases op with
    | pay m b =>
      rw [applyOp_def, step_pay, pay_impl_foreign c env st _ b hforeign]
    | lock m =>
      rw [applyOp_def, step_lock, lock_impl_foreign c env st _ hforeign]
    | stake j m => exact applyOp_stake_eq c st env j m
    | unstake j => exact applyOp_unstake_eq c st env j
    | withdraw j => exact applyOp_withdraw_eq c st env j

/-- Witness for the amended C3: a foreign call to `pay` is rejected with
`ForeignAccountNotAllowed`. -/
theorem claim_C3_witness :
    Teller.pay testConfig (foreignEnv 5) (Teller.mk 0 0) 1 "max.near"
      = Except.error Error.ForeignAccountNotAllowed := by
  have h := claim_C3 testConfig (foreignEnv 5) (Teller.mk 0 0) 1 0 "max.near"
    (by decide)
  exact h.1

/-- Claim C8: the multi-step scenario, with `r := nsRate c` the per-nanosecond
accrual factor and a positive configured rate.  An instance initialized at
`t = 0` has `hot = 100r` at `t = 100`; paying `30r` twice leaves `hot = 70r`
then `40r`; at `t = 200`, `hot = 140r`; a foreign-caller pay of any amount
fails with `ForeignAccountNotAllowed` leaving the state (hence `hot = 140r`)
untouched; a self-call pay of `500r` fails with `NotEnoughHot`; a self-call
pay of exactly `140r` succeeds and leaves `hot = 0`. -/
theorem claim_C8 (c : Config) (s f a : AccountId)
    (hr : 0 < c.nano_near_per_second) (hsf : s ≠ f) :
    Teller.init ⟨s, s, 0⟩ = Teller.mk 0 0
    ∧ (Teller.mk 0 0).hot c ⟨s, s, 100⟩ = 100 * nsRate c
    ∧ (Teller.mk 0 0).pay_impl c ⟨s, s, 100⟩ (30 * nsRate c) a
        = Except.ok (Teller.mk 0 (30 * nsRate c), [Action.transfer a (30 * nsRate c)])
    ∧ (Teller.mk 0 (30 * nsRate c)).hot c ⟨s, s, 100⟩ = 70 * nsRate c
    ∧ (Teller.mk 0 (30 * nsRate c)).pay_impl c ⟨s, s, 100⟩ (30 * nsRate c) a
        = Except.ok (Teller.mk 0 (60 * nsRate c), [Action.transfer a (30 * nsRate c)])
    ∧ (Teller.mk 0 (60 * nsRate c)).hot c ⟨s, s, 100⟩ = 40 * nsRate c
    ∧ (Teller.mk 0 (60 * nsRate c)).hot c ⟨s, s, 200⟩ = 140 * nsRate c
    ∧ (∀ y : Balance, (Teller.mk 0 (60 * nsRate c)).pay_impl c ⟨s, f, 200⟩ y a
        = Except.error Error.ForeignAccountNotAllowed)
    ∧ (Teller.mk 0 (60 * nsRate c)).pay_impl c ⟨s, s, 200⟩ (500 * nsRate c) a
        = Except.error Error.NotEnoughHot
    ∧ (Teller.mk 0 (60 * nsRate c)).pay_impl c ⟨s, s, 200⟩ (140 * nsRate c) a
        = Except.ok (Teller.mk 0 (200 * nsRate c), [Action.transfer a (140 * nsRate c)])
    ∧ (Teller.mk 0 (200 * nsRate c)).hot c ⟨s, s, 200⟩ = 0 := by
  have hR : 0 < nsRate c := Nat.mul_pos hr (by norm_num)
  have hacc1 : check_access ⟨s, s, 100⟩ = Except.ok () :=
    (check_access_ok_iff ⟨s, s, 100⟩).mpr rfl
  have hacc2 : check_access ⟨s, s, 200⟩ = Except.ok () :=
    (check_access_ok_iff ⟨s, s, 200⟩).mpr rfl
  have hot1 : (Teller.mk 0 0).hot c ⟨s, s, 100⟩ = 100 * nsRate c := by
    rw [hot_mk]
    exact Nat.sub_zero _
  have hot2 : (Teller.mk 0 (30 * nsRate c)).hot c ⟨s, s, 100⟩ = 70 * nsRate c := by
    rw [hot_mk, ← Nat.sub_mul, show (100 - 30 : Nat) = 70 from rfl]
  have hot3 : (Teller.mk 0 (60 * nsRate c)).hot c ⟨s, s, 100⟩ = 40 * nsRate c := by
    rw [hot_mk, ← Nat.sub_mul, show (100 - 60 : Nat) = 40 from rfl]
  have hot4 : (Teller.mk 0 (60 * nsRate c)).hot c ⟨s, s, 200⟩ = 140 * nsRate c := by
    rw [hot_mk, ← Nat.sub_mul, show (200 - 60 : Nat) = 140 from rfl]
  have hot5 : (Teller.mk 0 (200 * nsRate c)).hot c ⟨s, s, 200⟩ = 0 := by
    rw [hot_mk]
    exact Nat.sub_self _
  have hp1 : (Teller.mk 0 0).pay_impl c ⟨s, s, 100⟩ (30 * nsRate c) a
      = Except.ok (Teller.mk 0 (30 * nsRate c), [Action.transfer a (30 * nsRate c)]) := by
    rw [pay_impl_ok c ⟨s, s, 100⟩ (Teller.mk 0 0) (30 * nsRate c) a hacc1
      (by rw [hot1]; exact Nat.mul_le_mul_right _ (by norm_num))]
    simp
  have hp2 : (Teller.mk 0 (30 * nsRate c)).pay_impl c ⟨s, s, 100⟩ (30 * nsRate c) a
      = Except.ok (Teller.mk 0 (60 * nsRate c), [Action.transfer a (30 * nsRate c)]) := by
    rw [pay_impl_ok c ⟨s, s, 100⟩ (Teller.mk 0 (30 * nsRate c)) (30 * nsRate c) a hacc1
      (by rw [hot2]; exact Nat.mul_le_mul_right _ (by norm_num))]
    rw [← Nat.add_mul, show (30 + 30 : Nat) = 60 from rfl]
  have hp3 : (Teller.mk 0 (60 * nsRate c)).pay_impl c ⟨s, s, 200⟩ (140 * nsRate c) a
      = Except.ok (Teller.mk 0 (200 * nsRate c), [Action.transfer a (140 * nsRate c)]) := by
    rw [pay_impl_ok c ⟨s, s, 200⟩ (Teller.mk 0 (60 * nsRate c)) (140 * nsRate c) a hacc2
      (by rw [hot4])]
    rw [← Nat.add_mul, show (60 + 140 : Nat) = 200 from rfl]
  have hfail : (Teller.mk 0 (60 * nsRate c)).pay_impl c ⟨s, s, 200⟩ (500 * nsRate c) a
      = Except.error Error.NotEnoughHot := by
    apply pay_impl_notEnoughHot c ⟨s, s, 200⟩ (Teller.mk 0 (60 * nsRate c))
      (500 * nsRate c) a hacc2
    rw [hot4]
    exact mul_lt_mul_of_pos_right (by norm_num) hR
  exact ⟨rfl, hot1, hp1, hot2, hp2, hot3, hot4,
    fun y => pay_impl_foreign c ⟨s, f, 200⟩ (Teller.mk 0 (60 * nsRate c)) y a hsf,
    hfail, hp3, hot5⟩

/-- Witness for C8 with rate 1 and concrete self/foreign account names. -/
theorem claim_C8_witness :
    (Teller.mk 0 0).hot testConfig ⟨"teller.near", "teller.near", 100⟩
      = 100 * nsRate testConfig := by
  have h := claim_C8 testConfig "teller.near" "max.near" "bob.near" (by decide)
    (by decide)
  exact h.2.1

/-- Witness for C10 on a fresh instance, whose `hot()` is exactly 0. -/
theorem claim_C10_witness :
    (Teller.init (selfEnv 0)).pay testConfig (selfEnv 0) 0 "max.near"
      = Except.ok (Teller.init (selfEnv 0), [Action.transfer "max.near" 0]) := by
  have h := claim_C10 testConfig (selfEnv 0) (Teller.init (selfEnv 0)) "max.near"
    ((check_access_ok_iff (selfEnv 0)).mpr rfl)
  exact h.1

end NearTeller
